import Mathlib

set_option maxHeartbeats 1000000

namespace RubricsEnv

/-! Shallow embedding of `environments/rubrics/environment/server.py` and
`environments/rubrics/server/main.py`: the exponential-backoff retry helper,
the session-state endpoints (`setup`, `answer`, `evaluate`), the accession
extraction and truncation logic of `get_filing_content`, and the front-side
tool wrappers (`evaluate`, `get_filing_content`). -/

/-! Retry policy `call_with_exponential_backoff`.

The async operation `func(*args, **kwargs)` is modelled by a function from
the attempt index (0-based) to the outcome of that attempt: a success value,
an `httpx.HTTPStatusError` with its response status code, or any other
exception. Delays are modelled with `ℚ` in place of Python floats. -/

/-- Outcome of one invocation of the wrapped async operation. -/
inductive Outcome (α : Type) where
  /-- The call returned normally. -/
  | success (v : α)
  /-- The call raised `httpx.HTTPStatusError` with this response status code. -/
  | httpError (status : Nat)
  /-- The call raised some exception that is not an `HTTPStatusError`. -/
  | otherError
  deriving DecidableEq

/-- How `call_with_exponential_backoff` itself terminates. -/
inductive BackoffResult (α : Type) where
  /-- Returned the operation's value. -/
  | ok (v : α)
  /-- Re-raised an `HTTPStatusError` with this status code. -/
  | raisedHttp (status : Nat)
  /-- Re-raised a non-HTTP exception. -/
  | raisedOther
  /-- Raised `RuntimeError("Unexpected error in exponential backoff")`. -/
  | raisedRuntimeError
  deriving DecidableEq

/-- Observable trace of one run of the helper: the terminal event, the number
of times the operation was invoked, the sleeps performed (in order), and
whether control reached the code after the `for` loop. -/
structure BackoffTrace (α : Type) where
  result : BackoffResult α
  attempts : Nat
  waits : List ℚ
  postLoop : Bool
  deriving DecidableEq

/-- Python's two-argument `min` on rationals (executable form; `Min.min` on
`ℚ` does not reduce in the kernel). -/
def pymin (a b : ℚ) : ℚ := if a ≤ b then a else b

lemma pymin_eq_min (a b : ℚ) : pymin a b = min a b := (min_def a b).symm

/-- The body of `for attempt in range(max_retries + 1)` (server.py lines
59-84), followed by the post-loop code (lines 86-89).  `fuel` is the number
of loop indices still to be iterated, `attempt` the current index, `delay`
the current delay, `waited` the sleeps performed so far (most recent first),
`lastE` whether `last_exception` has been set (it is only ever set to the
429 error), and `made` the number of operation invocations so far. -/
def backoffRun {α : Type} (op : Nat → Outcome α) (maxRetries : Int)
    (maxDelay expBase : ℚ) :
    Nat → Nat → ℚ → List ℚ → Bool → Nat → BackoffTrace α
  | 0, _, _, waited, lastE, made =>
    { result := if lastE then .raisedHttp 429 else .raisedRuntimeError,
      attempts := made, waits := waited.reverse, postLoop := true }
  | fuel + 1, attempt, delay, waited, _lastE, made =>
    match op attempt with
    | .success v =>
      { result := .ok v, attempts := made + 1, waits := waited.reverse,
        postLoop := false }
    | .httpError s =>
      if s = 429 then
        if (attempt : Int) < maxRetries then
          backoffRun op maxRetries maxDelay expBase fuel (attempt + 1)
            (pymin (delay * expBase) maxDelay) (delay :: waited) true (made + 1)
        else
          { result := .raisedHttp 429, attempts := made + 1,
            waits := waited.reverse, postLoop := false }
      else
        { result := .raisedHttp s, attempts := made + 1,
          waits := waited.reverse, postLoop := false }
    | .otherError =>
      { result := .raisedOther, attempts := made + 1, waits := waited.reverse,
        postLoop := false }

/-- `call_with_exponential_backoff` (server.py lines 29-89).  In Python
`range(max_retries + 1)` is empty when `max_retries + 1 ≤ 0`, which
`(max_retries + 1).toNat` reproduces. -/
def call_with_exponential_backoff {α : Type} (op : Nat → Outcome α)
    (max_retries : Int) (initial_delay max_delay exponential_base : ℚ) :
    BackoffTrace α :=
  backoffRun op max_retries max_delay exponential_base
    (max_retries + 1).toNat 0 initial_delay [] false 0

/-- The delay used before the (n+1)-st sleep: the first sleep uses
`initial_delay`, and each subsequent delay is the previous one times the
exponential base, capped at `max_delay` (server.py line 75). -/
def delaySeq (maxDelay expBase d : ℚ) : Nat → ℚ
  | 0 => d
  | n + 1 => pymin (delaySeq maxDelay expBase d n * expBase) maxDelay

lemma delaySeq_shift (M b d : ℚ) (n : Nat) :
    delaySeq M b d (n + 1) = delaySeq M b (pymin (d * b) M) n := by
  induction n with
  | zero => rfl
  | succ n ih =>
    rw [delaySeq, ih, delaySeq]

lemma backoffRun_429_step {α : Type} (op : Nat → Outcome α) (maxRetries : Int)
    (M b : ℚ) (fuel attempt : Nat) (d : ℚ) (waited : List ℚ) (lastE : Bool)
    (made : Nat) (h : op attempt = .httpError 429) :
    backoffRun op maxRetries M b (fuel + 1) attempt d waited lastE made =
      if (attempt : Int) < maxRetries then
        backoffRun op maxRetries M b fuel (attempt + 1) (pymin (d * b) M)
          (d :: waited) true (made + 1)
      else
        { result := .raisedHttp 429, attempts := made + 1,
          waits := waited.reverse, postLoop := false } := by
  simp [backoffRun, h]

lemma range_map_delaySeq (M b d : ℚ) (k : Nat) :
    (List.range (k + 1)).map (delaySeq M b d) =
      d :: (List.range k).map (delaySeq M b (pymin (d * b) M)) := by
  rw [List.range_succ_eq_map, List.map_cons, List.map_map]
  refine congrArg (d :: ·) ?_
  exact List.map_congr_left fun i _ => delaySeq_shift M b d i

lemma backoffRun_success {α : Type} (op : Nat → Outcome α) (maxRetries : Int)
    (M b : ℚ) (v : α) :
    ∀ (k : Nat), ∀ (fuel attempt : Nat) (d : ℚ) (waited : List ℚ) (lastE : Bool)
      (made : Nat),
      k < fuel →
      (∀ i, i < k → op (attempt + i) = .httpError 429) →
      op (attempt + k) = .success v →
      (∀ i, i < k → (attempt + i : Int) < maxRetries) →
      backoffRun op maxRetries M b fuel attempt d waited lastE made =
        { result := .ok v, attempts := made + k + 1,
          waits := waited.reverse ++ (List.range k).map (delaySeq M b d),
          postLoop := false } := by
  intro k
  induction k with
  | zero =>
    intro fuel attempt d waited lastE made hfuel _ hsucc _
    obtain ⟨f, rfl⟩ : ∃ f, fuel = f + 1 := ⟨fuel - 1, by omega⟩
    rw [Nat.add_zero] at hsucc
    simp [backoffRun, hsucc]
  | succ k ih =>
    intro fuel attempt d waited lastE made hfuel hfail hsucc hlt
    obtain ⟨f, rfl⟩ : ∃ f, fuel = f + 1 := ⟨fuel - 1, by omega⟩
    have h0 : op attempt = .httpError 429 := by
      have h := hfail 0 (Nat.succ_pos k)
      simpa using h
    have h0lt : (attempt : Int) < maxRetries := by
      have h := hlt 0 (Nat.succ_pos k)
      simpa using h
    rw [backoffRun_429_step op maxRetries M b f attempt d waited lastE made h0,
      if_pos h0lt]
    have hfail2 : ∀ i, i < k → op (attempt + 1 + i) = .httpError 429 := by
      intro i hi
      have h := hfail (i + 1) (by omega)
      rwa [show attempt + (i + 1) = attempt + 1 + i by omega] at h
    have hsucc2 : op (attempt + 1 + k) = .success v := by
      rwa [show attempt + 1 + k = attempt + (k + 1) by omega]
    have hlt2 : ∀ i, i < k → (attempt + 1 + i : Int) < maxRetries := by
      intro i hi
      have h := hlt (i + 1) (by omega)
      push_cast at h ⊢
      omega
    rw [ih f (attempt + 1) (pymin (d * b) M) (d :: waited) true (made + 1)
      (by omega) hfail2 hsucc2 hlt2]
    simp only [BackoffTrace.mk.injEq]
    refine ⟨trivial, by omega, ?_, trivial⟩
    simp [range_map_delaySeq, List.reverse_cons, List.append_assoc]

lemma delaySeq_closed (M b d : ℚ) (hb : 1 ≤ b) (hd : 0 ≤ d) (hM : 0 ≤ M) :
    ∀ i : Nat, delaySeq M b d (i + 1) = min (d * b ^ (i + 1)) M := by
  intro i
  induction i with
  | zero => rw [delaySeq, delaySeq, pymin_eq_min, pow_one]
  | succ n ih =>
    rw [delaySeq, ih, pymin_eq_min]
    rcases le_total (d * b ^ (n + 1)) M with h | h
    · rw [min_eq_left h, mul_assoc, ← pow_succ]
    · have h1 : (0 : ℚ) ≤ d * b ^ (n + 1) :=
        mul_nonneg hd (pow_nonneg (le_trans zero_le_one hb) _)
      have h2 : M ≤ d * b ^ (n + 1 + 1) := by
        calc M ≤ d * b ^ (n + 1) := h
        _ ≤ d * b ^ (n + 1) * b := le_mul_of_one_le_right h1 hb
        _ = d * b ^ (n + 1 + 1) := by rw [mul_assoc, ← pow_succ]
      rw [min_eq_right h, min_eq_right (le_mul_of_one_le_right hM hb),
        min_eq_right h2]

/-- C1: for an operation that fails with a rate-limit (HTTP 429) signal on
exactly the first `k` attempts (`k ≤ max_retries`) and then succeeds,
`call_with_exponential_backoff` makes exactly `k + 1` attempts, returns the
success value, and sleeps between consecutive attempts with delays whose
first entry is `initial_delay` and each subsequent entry is the previous
delay times the exponential base capped at `max_delay` (`delaySeq`); for
base ≥ 1 and nonnegative `initial_delay`/`max_delay` the (i+1)-st delay is
`min (initial_delay * base ^ (i+1)) max_delay` in closed form. -/
theorem backoff_success_after_k_rate_limits {α : Type} (op : Nat → Outcome α)
    (max_retries : Int) (initial_delay max_delay exponential_base : ℚ)
    (k : Nat) (v : α)
    (hfail : ∀ i, i < k → op i = .httpError 429)
    (hsucc : op k = .success v)
    (hk : (k : Int) ≤ max_retries) :
    call_with_exponential_backoff op max_retries initial_delay max_delay
        exponential_base =
      { result := .ok v, attempts := k + 1,
        waits := (List.range k).map
          (delaySeq max_delay exponential_base initial_delay),
        postLoop := false } ∧
    (1 ≤ exponential_base → 0 ≤ initial_delay → 0 ≤ max_delay → ∀ i : Nat,
      delaySeq max_delay exponential_base initial_delay (i + 1) =
        min (initial_delay * exponential_base ^ (i + 1)) max_delay) := by
  constructor
  · have h := backoffRun_success op max_retries max_delay exponential_base v k
      (max_retries + 1).toNat 0 initial_delay [] false 0 (by omega)
      (by simpa using hfail) (by simpa using hsucc)
      (by intro i hi; push_cast; omega)
    simpa [call_with_exponential_backoff] using h
  · intro hb hd hM i
    exact delaySeq_closed max_delay exponential_base initial_delay hb hd hM i

/-- An operation that is rate-limited on its first two attempts and then
succeeds with value 42. -/
def rateLimitTwiceOp : Nat → Outcome Nat :=
  fun i => if i < 2 then .httpError 429 else .success 42

/-- Witness for C1 at `k = 2`, `max_retries = 5` and the default delays. -/
theorem backoff_success_after_k_rate_limits_witness :
    call_with_exponential_backoff rateLimitTwiceOp 5 1 60 2 =
      { result := .ok 42, attempts := 3, waits := [1, 2], postLoop := false } :=
  (backoff_success_after_k_rate_limits rateLimitTwiceOp 5 1 60 2 2 42
    (by decide) (by decide) (by decide)).1.trans
    (by norm_num [List.range_succ, delaySeq, pymin])

lemma backoffRun_all_rate_limited {α : Type} (op : Nat → Outcome α)
    (maxRetries : Int) (M b : ℚ)
    (hall : ∀ i, op i = Outcome.httpError 429) :
    ∀ (fuel : Nat), ∀ (attempt : Nat) (d : ℚ) (waited : List ℚ) (lastE : Bool)
      (made : Nat),
      0 < fuel → ((attempt : Int) + fuel = maxRetries + 1) →
      (backoffRun op maxRetries M b fuel attempt d waited lastE made).result =
          .raisedHttp 429 ∧
      (backoffRun op maxRetries M b fuel attempt d waited lastE made).attempts =
          made + fuel := by
  intro fuel
  induction fuel with
  | zero => intro _ _ _ _ _ h0 _; exact absurd h0 (by omega)
  | succ f ih =>
    intro attempt d waited lastE made _ hsum
    rw [backoffRun_429_step op maxRetries M b f attempt d waited lastE made
      (hall attempt)]
    rcases Nat.eq_zero_or_pos f with hf | hf
    · subst hf
      have hq : ¬ (attempt : Int) < maxRetries := by push_cast at hsum; omega
      rw [if_neg hq]
      exact ⟨rfl, rfl⟩
    · have hq : (attempt : Int) < maxRetries := by push_cast at hsum; omega
      rw [if_pos hq]
      have h := ih (attempt + 1) (pymin (d * b) M) (d :: waited) true (made + 1)
        hf (by push_cast at hsum ⊢; omega)
      exact ⟨h.1, by omega⟩

/-- C2: for an operation that is rate-limited (HTTP 429) on every attempt,
`call_with_exponential_backoff` makes exactly `max_retries + 1` attempts and
then re-raises the rate-limit failure, making no further attempts. -/
theorem backoff_raises_after_exhausting_retries {α : Type} (op : Nat → Outcome α)
    (max_retries : Int) (initial_delay max_delay exponential_base : ℚ)
    (h0 : 0 ≤ max_retries)
    (hall : ∀ i, op i = Outcome.httpError 429) :
    (call_with_exponential_backoff op max_retries initial_delay max_delay
        exponential_base).result = .raisedHttp 429 ∧
    ((call_with_exponential_backoff op max_retries initial_delay max_delay
        exponential_base).attempts : Int) = max_retries + 1 := by
  have h := backoffRun_all_rate_limited op max_retries max_delay exponential_base
    hall (max_retries + 1).toNat 0 initial_delay [] false 0 (by omega)
    (by push_cast; omega)
  have h2 := h.2
  unfold call_with_exponential_backoff
  exact ⟨h.1, by omega⟩

/-- An operation that is rate-limited on every attempt. -/
def alwaysRateLimitedOp : Nat → Outcome Nat := fun _ => .httpError 429

/-- Witness for C2 at the default `max_retries = 5`. -/
theorem backoff_raises_after_exhausting_retries_witness :
    (call_with_exponential_backoff alwaysRateLimitedOp 5 1 60 2).result =
        .raisedHttp 429 ∧
    ((call_with_exponential_backoff alwaysRateLimitedOp 5 1 60 2).attempts : Int) =
        5 + 1 :=
  backoff_raises_after_exhausting_retries alwaysRateLimitedOp 5 1 60 2
    (by decide) (fun _ => rfl)

/-- C3: if the first attempt fails with any error that is not a rate-limit
signal — an `HTTPStatusError` with a status other than 429, or a non-HTTP
exception — `call_with_exponential_backoff` re-raises it immediately after
exactly one attempt, with no sleeps, for every `max_retries ≥ 0`. -/
theorem backoff_propagates_non_rate_limit {α : Type} (op : Nat → Outcome α)
    (max_retries : Int) (initial_delay max_delay exponential_base : ℚ)
    (h0 : 0 ≤ max_retries) :
    (∀ s, s ≠ 429 → op 0 = .httpError s →
      call_with_exponential_backoff op max_retries initial_delay max_delay
          exponential_base =
        { result := .raisedHttp s, attempts := 1, waits := [],
          postLoop := false }) ∧
    (op 0 = .otherError →
      call_with_exponential_backoff op max_retries initial_delay max_delay
          exponential_base =
        { result := .raisedOther, attempts := 1, waits := [],
          postLoop := false }) := by
  obtain ⟨f, hf⟩ : ∃ f, (max_retries + 1).toNat = f + 1 :=
    ⟨max_retries.toNat, by omega⟩
  constructor
  · intro s hs hop
    unfold call_with_exponential_backoff
    rw [hf]
    simp [backoffRun, hop, hs]
  · intro hop
    unfold call_with_exponential_backoff
    rw [hf]
    simp [backoffRun, hop]

/-- An operation whose first attempt raises an `HTTPStatusError` with
status 500. -/
def serverErrorOp : Nat → Outcome Nat := fun _ => .httpError 500

/-- An operation whose first attempt raises a non-HTTP exception. -/
def brokenOp : Nat → Outcome Nat := fun _ => .otherError

/-- Witness for C3: a 500 response and a non-HTTP exception each propagate
after exactly one attempt under the default `max_retries = 5`. -/
theorem backoff_propagates_non_rate_limit_witness :
    call_with_exponential_backoff serverErrorOp 5 1 60 2 =
      { result := .raisedHttp 500, attempts := 1, waits := [],
        postLoop := false } ∧
    call_with_exponential_backoff brokenOp 5 1 60 2 =
      { result := .raisedOther, attempts := 1, waits := [],
        postLoop := false } :=
  ⟨(backoff_propagates_non_rate_limit serverErrorOp 5 1 60 2 (by decide)).1 500
      (by decide) rfl,
   (backoff_propagates_non_rate_limit brokenOp 5 1 60 2 (by decide)).2 rfl⟩

lemma backoffRun_no_postLoop {α : Type} (op : Nat → Outcome α) (maxRetries : Int)
    (M b : ℚ) :
    ∀ (fuel : Nat), ∀ (attempt : Nat) (d : ℚ) (waited : List ℚ) (lastE : Bool)
      (made : Nat),
      0 < fuel → ((attempt : Int) + fuel = maxRetries + 1) →
      (backoffRun op maxRetries M b fuel attempt d waited lastE made).postLoop =
        false := by
  intro fuel
  induction fuel with
  | zero => intro _ _ _ _ _ h0 _; exact absurd h0 (by omega)
  | succ f ih =>
    intro attempt d waited lastE made _ hsum
    cases hop : op attempt with
    | success v => simp [backoffRun, hop]
    | httpError s =>
      by_cases hs : s = 429
      · subst hs
        rw [backoffRun_429_step op maxRetries M b f attempt d waited lastE made
          hop]
        by_cases hlt : (attempt : Int) < maxRetries
        · rw [if_pos hlt]
          refine ih (attempt + 1) (pymin (d * b) M) (d :: waited) true (made + 1)
            (by push_cast at hsum; omega) (by push_cast at hsum ⊢; omega)
        · rw [if_neg hlt]
      · simp [backoffRun, hop, hs]
    | otherError => simp [backoffRun, hop]

/-- C4: `call_with_exponential_backoff` never returns a value by falling
through its retry loop: whenever control reaches the code after the loop the
helper raises the generic `RuntimeError` rather than returning normally, and
for every `max_retries ≥ 0` (in particular the default 5) the post-loop code
is unreachable. -/
theorem backoff_postloop_never_returns {α : Type} (op : Nat → Outcome α)
    (max_retries : Int) (initial_delay max_delay exponential_base : ℚ) :
    ((call_with_exponential_backoff op max_retries initial_delay max_delay
        exponential_base).postLoop = true →
      (call_with_exponential_backoff op max_retries initial_delay max_delay
          exponential_base).result = .raisedRuntimeError) ∧
    (0 ≤ max_retries →
      (call_with_exponential_backoff op max_retries initial_delay max_delay
          exponential_base).postLoop = false) := by
  have hno : 0 ≤ max_retries →
      (call_with_exponential_backoff op max_retries initial_delay max_delay
        exponential_base).postLoop = false := by
    intro h0
    unfold call_with_exponential_backoff
    exact backoffRun_no_postLoop op max_retries max_delay exponential_base
      (max_retries + 1).toNat 0 initial_delay [] false 0 (by omega)
      (by push_cast; omega)
  refine ⟨?_, hno⟩
  intro hpost
  by_cases h0 : 0 ≤ max_retries
  · rw [hno h0] at hpost
    cases hpost
  · have hz : (max_retries + 1).toNat = 0 := by omega
    unfold call_with_exponential_backoff
    rw [hz]
    rfl

/-- Witness for C4: with `max_retries = -1` the loop body never runs, the
post-loop code is reached and raises `RuntimeError`; with the default
`max_retries = 5` the post-loop code is not reached. -/
theorem backoff_postloop_never_returns_witness :
    (call_with_exponential_backoff alwaysRateLimitedOp (-1) 1 60 2).result =
        .raisedRuntimeError ∧
    (call_with_exponential_backoff alwaysRateLimitedOp 5 1 60 2).postLoop =
        false :=
  ⟨(backoff_postloop_never_returns alwaysRateLimitedOp (-1) 1 60 2).1 rfl,
   (backoff_postloop_never_returns alwaysRateLimitedOp 5 1 60 2).2 (by decide)⟩

/-! Session state and the `answer` and `evaluate` endpoints
(environment/server.py lines 92-106 and 265-288). The external `rubric`
library is modelled by parameters: `from_dict` builds a rubric value of
abstract type `R` from the request's requirement/weight items and `grade`
grades a submitted answer, returning `score` and `report` (report entries of
abstract type `ρ`; `model_dump` is abstracted to the identity, and
`[r.model_dump() for r in report] if report else []` equals the report list
itself under that abstraction). `evaluateEndpoint` additionally returns the
list of grading-library invocations, in call order, so theorems can state
how often and with which arguments the library was called. -/

/-- `_EnvState` (server.py lines 92-103). -/
structure EnvState where
  search_count : Nat
  fetch_count : Nat
  submitted_answer : Option String
  deriving DecidableEq

/-- `_EnvState.reset`, as invoked by `POST /setup`. -/
def EnvState.reset (_s : EnvState) : EnvState :=
  { search_count := 0, fetch_count := 0, submitted_answer := none }

/-- One entry of the `EvaluateRequest.rubric` list. -/
structure RubricItem where
  requirement : String
  weight : ℚ
  deriving DecidableEq

/-- What `rubric.grade(submitted)` returns: `evaluation.score` and
`evaluation.report`. -/
structure GradeResult (ρ : Type) where
  score : ℚ
  report : List ρ

/-- JSON body returned by `POST /evaluate`: `reward` is always present,
`content` only in the no-answer short-circuit, `info` only after grading. -/
structure EvalResponse (ρ : Type) where
  reward : ℚ
  done : Bool
  content : Option String
  info : Option (List ρ)
  deriving DecidableEq

/-- `POST /answer` (server.py lines 265-268): overwrite the stored answer
and return `{ok: true, message: "Answer submitted"}`. -/
def answerEndpoint (s : EnvState) (final_answer : String) :
    EnvState × Bool × String :=
  ({ s with submitted_answer := some final_answer }, true, "Answer submitted")

/-- The `content` string of the no-answer short-circuit (server.py
line 277). -/
def noAnswerMessage (s : EnvState) : String :=
  "No answer submitted. Searches: " ++ toString s.search_count ++
    ", Fetches: " ++ toString s.fetch_count

/-- `POST /evaluate` (server.py lines 271-288), paired with the list of
grading-library invocations it performed. -/
def evaluateEndpoint {R ρ : Type} (from_dict : List RubricItem → R)
    (grade : R → String → GradeResult ρ) (s : EnvState)
    (rubricReq : List RubricItem) : EvalResponse ρ × List (R × String) :=
  match s.submitted_answer with
  | none =>
    ({ reward := 0, done := false, content := some (noAnswerMessage s),
       info := none }, [])
  | some submitted =>
    let rubric := from_dict rubricReq
    let evaluation := grade rubric submitted
    ({ reward := evaluation.score, done := true, content := none,
       info := some evaluation.report }, [(rubric, submitted)])

/-- C5: whenever `submitted_answer` is null — in particular right after
`setup` — `POST /evaluate` returns reward 0, `done = false` and a content
string carrying the current search and fetch counters, and the grading
library is not invoked at all (the invocation list is empty). -/
theorem evaluate_without_answer {R ρ : Type} (from_dict : List RubricItem → R)
    (grade : R → String → GradeResult ρ) (s : EnvState)
    (rubricReq : List RubricItem) (h : s.submitted_answer = none) :
    evaluateEndpoint from_dict grade s rubricReq =
      ({ reward := 0, done := false,
         content := some ("No answer submitted. Searches: " ++
           toString s.search_count ++ ", Fetches: " ++ toString s.fetch_count),
         info := none }, []) := by
  simp [evaluateEndpoint, h, noAnswerMessage]

/-- Witness for C5: `setup` (resetting a dirty state) followed by `evaluate`
with no intervening `answer` call. -/
theorem evaluate_without_answer_witness :
    @evaluateEndpoint (List RubricItem) Unit id (fun _ _ => ⟨1, []⟩)
      (EnvState.reset
        { search_count := 7, fetch_count := 9,
          submitted_answer := some "stale" })
      [⟨"req", 1⟩] =
      ({ reward := 0, done := false,
         content := some "No answer submitted. Searches: 0, Fetches: 0",
         info := none }, []) :=
  (evaluate_without_answer id (fun _ _ => ⟨1, []⟩) _ _ rfl).trans (by rfl)

/-- C6: submitting answer `x` and then evaluating with rubric request `req`
stores `x` as the submitted answer, invokes the grading library exactly once
— with submitted answer `x` and the rubric `Rubric.from_dict` builds from
`req`'s requirement/weight items — and returns `done = true` with reward
equal to the score the library reported. -/
theorem answer_then_evaluate_grades_once {R ρ : Type}
    (from_dict : List RubricItem → R) (grade : R → String → GradeResult ρ)
    (s : EnvState) (x : String) (rubricReq : List RubricItem) :
    (answerEndpoint s x).1.submitted_answer = some x ∧
    evaluateEndpoint from_dict grade (answerEndpoint s x).1 rubricReq =
      ({ reward := (grade (from_dict rubricReq) x).score, done := true,
         content := none,
         info := some (grade (from_dict rubricReq) x).report },
       [(from_dict rubricReq, x)]) :=
  ⟨rfl, rfl⟩

/-! Accession extraction and content truncation in
`POST /get_filing_content` (environment/server.py lines 222-254). Python
strings are modelled as `List Char`; the URL path's segments are
`pySplit '/' path`. -/

/-- Python `s.split(sep)` for a one-character separator (as in
`parsed.path.split("/")`): splitting the empty string yields `[""]` and
consecutive separators yield empty segments. -/
def pySplit (sep : Char) : List Char → List (List Char)
  | [] => [[]]
  | c :: rest =>
    match pySplit sep rest with
    | [] => [[]]
    | s :: ss => if c = sep then [] :: s :: ss else (c :: s) :: ss

/-- The segment-selection condition of server.py line 233:
`len(part) > 10 and "-" in part`. -/
def isAccessionPart (p : List Char) : Bool :=
  decide (10 < p.length) && p.contains '-'

/-- Outcome of the accession-extraction step of `get_filing_content`: either
the accession (hyphens stripped) passed to the downstream `Filing` fetch, or
the `HTTPException(400)` raised on server.py line 238. -/
inductive AccessionOutcome where
  | ok (accession : List Char)
  | badRequest
  deriving DecidableEq

/-- Server.py lines 227-240: split the URL path on `/`, take the first
segment of length > 10 containing a hyphen, strip its hyphens
(`part.replace("-", "")`); `if not accession:` treats both `None` (no such
segment) and the empty string (an all-hyphen segment) as missing, raising
HTTP 400. -/
def extract_accession (path : List Char) : AccessionOutcome :=
  match (pySplit '/' path).find? isAccessionPart with
  | none => .badRequest
  | some part =>
    let accession := part.filter (fun c => c != '-')
    if accession.isEmpty then .badRequest else .ok accession

lemma find?_append_first {α : Type} (p : α → Bool) :
    ∀ (pre : List α) (sel : α) (post : List α),
      (∀ x ∈ pre, p x = false) → p sel = true →
      List.find? p (pre ++ sel :: post) = some sel := by
  intro pre
  induction pre with
  | nil =>
    intro sel post _ hsel
    simp [List.find?, hsel]
  | cons a tl ih =>
    intro sel post hpre hsel
    have ha : p a = false := hpre a (List.mem_cons_self a tl)
    simp only [List.cons_append, List.find?, ha]
    exact ih sel post (fun x hx => hpre x (List.mem_cons_of_mem a hx)) hsel

/-- C7 (amended): the extraction splits the URL path into segments and
selects the first segment whose length exceeds 10 characters and which
contains a hyphen; if no segment qualifies, or the selected segment consists
entirely of hyphens (stripping hyphens leaves the empty string), the
operation fails with the HTTP 400 client-input error without attempting the
downstream fetch; otherwise it returns the selected segment with all hyphens
removed as the accession number. -/
theorem extract_accession_first_qualifying_segment (path : List Char) :
    ((∀ p ∈ pySplit '/' path, isAccessionPart p = false) →
      extract_accession path = .badRequest) ∧
    (∀ pre sel post, pySplit '/' path = pre ++ sel :: post →
      (∀ p ∈ pre, isAccessionPart p = false) → isAccessionPart sel = true →
      (sel.filter (fun c => c != '-') = [] →
        extract_accession path = .badRequest) ∧
      (sel.filter (fun c => c != '-') ≠ [] →
        extract_accession path = .ok (sel.filter (fun c => c != '-')))) := by
  constructor
  · intro hall
    have hn : (pySplit '/' path).find? isAccessionPart = none :=
      List.find?_eq_none.mpr (fun x hx => by simp [hall x hx])
    simp [extract_accession, hn]
  · intro pre sel post hsplit hpre hsel
    have hfind : (pySplit '/' path).find? isAccessionPart = some sel := by
      rw [hsplit]
      exact find?_append_first isAccessionPart pre sel post hpre hsel
    constructor
    · intro hempty
      simp [extract_accession, hfind, hempty]
    · intro hne
      simp only [extract_accession, hfind]
      rw [if_neg (by simpa [List.isEmpty_iff] using hne)]

/-- Witness for the amended C7 on an EDGAR-style URL path containing a
20-character hyphenated accession segment. -/
theorem extract_accession_first_qualifying_segment_witness :
    extract_accession
        ("/Archives/edgar/data/320193/0000320193-23-000106/doc.txt".toList) =
      .ok ("000032019323000106".toList) := by
  have h := (extract_accession_first_qualifying_segment
      ("/Archives/edgar/data/320193/0000320193-23-000106/doc.txt".toList)).2
    [[], "Archives".toList, "edgar".toList, "data".toList, "320193".toList]
    ("0000320193-23-000106".toList) ["doc.txt".toList]
    (by decide) (by decide) (by decide)
  exact (h.2 (by decide)).trans (by decide)

/-- C7 counterexample: in the URL path made of a slash followed by 11
hyphens, the segment of 11 hyphens has length > 10 and contains a hyphen, so by the claim the
extraction should select it and return it with hyphens removed; the code
instead raises the HTTP 400 client-input error, because `if not accession:`
also treats the empty stripped string as missing. -/
theorem extract_accession_counterexample :
    ((pySplit '/' ("/-----------".toList)).find? isAccessionPart).isSome =
        true ∧
    extract_accession ("/-----------".toList) = .badRequest := by
  exact ⟨by decide, by decide⟩

/-- The truncation marker appended on server.py line 251. -/
def truncation_marker : List Char := "\n\n...[truncated]".toList

/-- Server.py lines 249-251: truncate the filing text at 50,000 characters,
appending the marker. -/
def truncate_content (content : List Char) : List Char :=
  if 50000 < content.length then content.take 50000 ++ truncation_marker
  else content

/-- C8: filing text longer than 50,000 characters is returned as exactly its
first 50,000 characters followed by the truncation marker; text of at most
50,000 characters is returned unmodified with no marker. -/
theorem truncate_content_spec (content : List Char) :
    (50000 < content.length →
      truncate_content content = content.take 50000 ++ truncation_marker ∧
      (content.take 50000).length = 50000) ∧
    (content.length ≤ 50000 → truncate_content content = content) := by
  constructor
  · intro h
    refine ⟨by simp [truncate_content, h], ?_⟩
    rw [List.length_take]
    omega
  · intro h
    unfold truncate_content
    rw [if_neg (by omega)]

/-- Witness for C8: a 50,001-character text is truncated to its first 50,000
characters plus the marker. -/
theorem truncate_content_spec_witness :
    50000 < (List.replicate 50001 'a').length ∧
    truncate_content (List.replicate 50001 'a') =
      (List.replicate 50001 'a').take 50000 ++ truncation_marker ∧
    ((List.replicate 50001 'a').take 50000).length = 50000 :=
  ⟨by rw [List.length_replicate]; omega,
   (truncate_content_spec (List.replicate 50001 'a')).1
     (by rw [List.length_replicate]; omega)⟩

/-! Front-side tools (server/main.py). -/

/-- `hud.tools.types.EvaluationResult` as used by the front's `evaluate`
tool. -/
structure EvaluationResult where
  reward : ℚ
  done : Bool
  content : Option String
  isError : Bool
  deriving DecidableEq

/-- Outcome of `http_client.post("/evaluate", ...)` together with decoding:
either the request itself raised (backend unreachable, timeout, ...) or a
response arrived with a status code and `EvaluationResult(**resp.json())`
either produced a value or raised (JSON-decoding/validation failure).
Exception messages are abstracted as strings. -/
inductive BackendCall where
  | transportFailure (msg : String)
  | response (status : Nat) (decoded : Except String EvaluationResult)

/-- The error result built in the `except` branch of the front's `evaluate`
tool (main.py lines 215-219). -/
def errorEvaluationResult (msg : String) : EvaluationResult :=
  { reward := 0, done := true, content := some ("Evaluation error: " ++ msg),
    isError := true }

/-- The front's `evaluate` tool (main.py lines 200-219): POST to the
backend, `raise_for_status()` (httpx raises for every non-2xx status; the
exception's text is abstracted as `"HTTP status error " ++ status`), decode
into `EvaluationResult`; any exception anywhere in the `try` block is
converted into `errorEvaluationResult` instead of propagating. -/
def evaluateTool (call : BackendCall) : EvaluationResult :=
  match call with
  | .transportFailure msg => errorEvaluationResult msg
  | .response status decoded =>
    if status < 200 ∨ 300 ≤ status then
      errorEvaluationResult ("HTTP status error " ++ toString status)
    else
      match decoded with
      | .error msg => errorEvaluationResult msg
      | .ok r => r

/-- C9: the front's `evaluate` tool is total — it never lets a failure
propagate.  On a transport failure it returns reward 0, `done = true`,
`isError = true` and a content message embedding the failure; on an HTTP
error status it returns reward 0, `done = true`, `isError = true`; on a
decoding failure of a 2xx response it returns the same error shape with the
failure message; and on a successfully decoded 2xx response it returns the
decoded result itself. -/
theorem evaluate_tool_never_raises (call : BackendCall) :
    (∀ msg, call = .transportFailure msg →
      evaluateTool call =
        { reward := 0, done := true,
          content := some ("Evaluation error: " ++ msg), isError := true }) ∧
    (∀ status decoded, call = .response status decoded →
      status < 200 ∨ 300 ≤ status →
      (evaluateTool call).reward = 0 ∧ (evaluateTool call).done = true ∧
        (evaluateTool call).isError = true) ∧
    (∀ status msg, call = .response status (.error msg) →
      200 ≤ status → status < 300 →
      evaluateTool call =
        { reward := 0, done := true,
          content := some ("Evaluation error: " ++ msg), isError := true }) ∧
    (∀ status r, call = .response status (.ok r) → 200 ≤ status →
      status < 300 → evaluateTool call = r) := by
  refine ⟨?_, ?_, ?_, ?_⟩
  · intro msg h
    subst h
    rfl
  · intro status decoded h hbad
    subst h
    simp only [evaluateTool]
    rw [if_pos hbad]
    exact ⟨rfl, rfl, rfl⟩
  · intro status msg h h1 h2
    subst h
    simp only [evaluateTool]
    rw [if_neg (by omega)]
    rfl
  · intro status r h h1 h2
    subst h
    simp only [evaluateTool]
    rw [if_neg (by omega)]

/-- Witness for C9: an unreachable backend yields the structured error
result; a decoded 200 response is returned as-is. -/
theorem evaluate_tool_never_raises_witness :
    evaluateTool (.transportFailure "connection refused") =
      { reward := 0, done := true,
        content := some ("Evaluation error: " ++ "connection refused"),
        isError := true } ∧
    evaluateTool (.response 200
        (.ok { reward := 1, done := true, content := none,
               isError := false })) =
      { reward := 1, done := true, content := none, isError := false } :=
  ⟨(evaluate_tool_never_raises (.transportFailure "connection refused")).1
      "connection refused" rfl,
   (evaluate_tool_never_raises (.response 200
        (.ok { reward := 1, done := true, content := none,
               isError := false }))).2.2.2 200 _ rfl
      (by decide) (by decide)⟩

/-- Python `dict.get(key, default)` on a decoded JSON object, modelled as an
association list (the fields relevant here — `content`, `detail` — carry
string values). -/
def pyDictGet (d : List (String × String)) (key dflt : String) : String :=
  match d.find? (fun kv => kv.1 == key) with
  | some kv => kv.2
  | none => dflt

/-- The front's `get_filing_content` tool (main.py lines 88-101): POST to
the backend and return `resp.json().get("content", "")`. -/
def get_filing_content_tool (body : List (String × String)) : String :=
  pyDictGet body "content" ""

/-- C10: whenever the decoded backend response carries no `content` field —
in particular the backend's 400/500 error bodies, which carry only a
`detail` field — the front's `get_filing_content` tool returns the empty
string instead of raising or surfacing the backend error. -/
theorem get_filing_content_tool_missing_field (body : List (String × String))
    (h : ∀ kv ∈ body, kv.1 ≠ "content") :
    get_filing_content_tool body = "" ∧
    ∀ detail, get_filing_content_tool [("detail", detail)] = "" := by
  constructor
  · have hn : body.find? (fun kv => kv.1 == "content") = none :=
      List.find?_eq_none.mpr (fun kv hkv => by simp [h kv hkv])
    simp [get_filing_content_tool, pyDictGet, hn]
  · intro detail
    rfl

/-- Witness for C10 at the backend's 400 error body. -/
theorem get_filing_content_tool_missing_field_witness :
    get_filing_content_tool
        [("detail", "Could not extract accession number from URL")] = "" :=
  (get_filing_content_tool_missing_field
      [("detail", "Could not extract accession number from URL")]
      (by decide)).1

end RubricsEnv
